import Mathlib

/-!
Verification development for the LettersAI retrieval pipeline
(`app.py` — Streamlit variant with a persistent chroma collection, and
`poc_free.py` — in-memory proof of concept).

Python strings are modelled as lists of characters (`PyStr`); the external
embedding model, the vector-distance function of the store and the
translation provider are parameters of the definitions that use them.
Scores and distances are modelled as rationals.
-/

namespace LettersAI

/-- Python strings, modelled as lists of characters. -/
abbrev PyStr := List Char

/-- Coerce a Lean string literal to the `PyStr` model. -/
def strOf (s : String) : PyStr := s.toList

/-- The marker characters used by `detect_language` in `app.py`
(`yiddish_markers = ["ײ", "ױ", "װ"]`, each a one-character string). -/
def yiddishMarkers : List Char := ['ײ', 'ױ', 'װ']

/-- Model of `app.py` `detect_language`: return `"yi"` when the text contains any of the
Yiddish marker characters, otherwise return `"he"`
(`if any(char in text for char in yiddish_markers): return "yi"; return "he"`). -/
def detect_language (text : PyStr) : String :=
  if yiddishMarkers.any (fun c => text.contains c) then "yi" else "he"

/-- One record of the chroma collection, as written by `app.py`
`index_document`: `ids=[doc_id]`, `embeddings=[vector]`, `documents=[text]`,
`metadatas=[{"lang": lang}]`. The embedding space `Vec` is a parameter. -/
structure Entry (Vec : Type) where
  id : String
  embedding : Vec
  text : PyStr
  lang : String
deriving DecidableEq

/-- The persistent chroma collection of `app.py`: the live contents plus the
snapshot written by the last `collection.persist()` call. -/
structure Store (Vec : Type) where
  live : List (Entry Vec)
  persisted : List (Entry Vec)
deriving DecidableEq

/-- Model of `chromadb` `Collection.add` with a single id: an id that already exists is
not overwritten — chroma keeps the existing record and ignores the insert
(its documented duplicate-id behavior; `add` is not an upsert) — otherwise
the new record is appended. -/
def collectionAdd {Vec : Type} (c : List (Entry Vec)) (e : Entry Vec) : List (Entry Vec) :=
  if c.any (fun x => x.id == e.id) then c else c ++ [e]

/-- Model of `chromadb` `Collection.delete` with a single id: every record carrying
that id is removed; an unknown id is a no-op. -/
def collectionDelete {Vec : Type} (c : List (Entry Vec)) (docId : String) : List (Entry Vec) :=
  c.filter (fun e => e.id != docId)

/-- Insert a record into a list kept sorted by ascending distance
(stable: on equal keys the earlier record stays first). -/
def insertByDist {Vec : Type} (d : Entry Vec → Rat) (e : Entry Vec) :
    List (Entry Vec) → List (Entry Vec)
  | [] => [e]
  | x :: xs => if d e < d x then e :: x :: xs else x :: insertByDist d e xs

/-- Sort the records of the collection by ascending distance to the query. -/
def sortByDist {Vec : Type} (d : Entry Vec → Rat) (c : List (Entry Vec)) : List (Entry Vec) :=
  c.foldr (insertByDist d) []

/-- Model of `chromadb` `Collection.query`: up to `n` nearest records by embedding
distance; on an empty collection the result set is empty, not an error
(the store contract assumed by `app.py`'s `search`, which tests
`if not results["documents"][0]`). -/
def collectionQuery {Vec : Type} (dist : Vec → Vec → Rat) (c : List (Entry Vec))
    (qv : Vec) (n : Nat) : List (Entry Vec) :=
  (sortByDist (fun e => dist qv e.embedding) c).take n

/-- Model of `app.py` `index_document`: embed the whole text once, `collection.add` a
single record, then `collection.persist()`. The embedding model is the
parameter `embed`. -/
def index_document {Vec : Type} (embed : PyStr → Vec) (docId : String) (text : PyStr)
    (lang : String) (s : Store Vec) : Store Vec :=
  let live := collectionAdd s.live ⟨docId, embed text, text, lang⟩
  { live := live, persisted := live }

/-- Model of `app.py` `delete_documents`: `collection.delete(ids=[doc_id])` for each id
in turn, then a single `collection.persist()` before returning. -/
def delete_documents {Vec : Type} (ids : List String) (s : Store Vec) : Store Vec :=
  let live := ids.foldl (fun acc docId => collectionDelete acc docId) s.live
  { live := live, persisted := live }

/-- One summary record produced by `app.py` `list_documents`:
`{"id": ..., "lang": ..., "content_preview": doc[:50]}`. -/
structure DocSummary where
  id : String
  lang : String
  content_preview : PyStr
deriving DecidableEq

/-- Model of `app.py` `list_documents`: one summary per stored record, the preview
being the first 50 characters of the stored document text. -/
def list_documents {Vec : Type} (s : Store Vec) : List DocSummary :=
  s.live.map (fun e => ⟨e.id, e.lang, e.text.take 50⟩)

/-- Model of `app.py` `search`: embed the query, fetch the single nearest record,
return the sentinel string `"No documents found."` when the result set is
empty, otherwise the translation of the matched document in its recorded
language. `translate` models the Argos translation collaborator. -/
def search {Vec : Type} (embed : PyStr → Vec) (dist : Vec → Vec → Rat)
    (translate : PyStr → String → PyStr) (query : PyStr) (s : Store Vec) : PyStr :=
  match collectionQuery dist s.live (embed query) 1 with
  | [] => strOf "No documents found."
  | e :: _ => translate e.text e.lang

/-- The `Index Documents` button handler of `app.py`: it reads
`current_count = len(collection.get()['documents'])` once, then indexes the
uploaded files with ids `f"doc_{current_count+i}"` and auto-detected
languages. -/
def indexDocumentsHandler {Vec : Type} (embed : PyStr → Vec) (files : List PyStr)
    (s : Store Vec) : Store Vec :=
  let count := s.live.length
  files.enum.foldl
    (fun acc p =>
      index_document embed ("doc_" ++ toString (count + p.1)) p.2 (detect_language p.2) acc)
    s

/-- Lower-case a modelled Python string. `Char.toLower` covers the ASCII
range, which is all the case-insensitive comparisons of the scorer touch. -/
def lowerL (l : PyStr) : PyStr := l.map Char.toLower

/-- Helper for `splitWs`: accumulate the current token (reversed). -/
def splitWsAux : PyStr → PyStr → List PyStr
  | [], cur => if cur.isEmpty then [] else [cur.reverse]
  | c :: rest, cur =>
    if c.isWhitespace then
      if cur.isEmpty then splitWsAux rest [] else cur.reverse :: splitWsAux rest []
    else
      splitWsAux rest (c :: cur)

/-- Whitespace tokenisation as Python's `str.split()`: split on runs of
whitespace, producing no empty tokens. -/
def splitWs (l : PyStr) : List PyStr := splitWsAux l []

/-- Python's `tok in text` substring test on modelled strings. -/
def strContains (text tok : PyStr) : Bool :=
  text.tails.any (fun t => tok.isPrefixOf t)

/-- Modelled from the spec: the lexical boost of the Relevance Scorer (the
keyword-boosted search variant of the repository is not among the source
files under `src/`). Exactly `0.2` is added, once, when any
whitespace-delimited token of the lower-cased query occurs as a substring of
the lower-cased candidate text; otherwise `0`. -/
def lexicalBoost (queryText candText : PyStr) : Rat :=
  if (splitWs (lowerL queryText)).any (fun tok => strContains (lowerL candText) tok)
  then 1/5 else 0

/-- Modelled from the spec: the boosted score of the Relevance Scorer —
cosine similarity of the two vectors plus the lexical boost, no clamping.
The cosine of the embedding provider is the parameter `cosSim`. -/
def boostedScore {Vec : Type} (cosSim : Vec → Vec → Rat) (queryText : PyStr) (qv : Vec)
    (candText : PyStr) (cv : Vec) : Rat :=
  cosSim qv cv + lexicalBoost queryText candText

/-- A scoring candidate: the raw text of an indexed unit and its vector. -/
structure Cand (Vec : Type) where
  text : PyStr
  vec : Vec
deriving DecidableEq

/-- Modelled from the spec: selection across candidates — the candidate with
the maximum boosted score, ties broken by first occurrence in iteration
order. Returns the winner together with its score. -/
def bestCand {Vec : Type} (score : Cand Vec → Rat) : List (Cand Vec) → Option (Cand Vec × Rat)
  | [] => none
  | c :: rest =>
    match bestCand score rest with
    | none => some (c, score c)
    | some (b, s) => if score c < s then some (b, s) else some (c, score c)

/-- Modelled from the spec: search with the rejection threshold — when the
best boosted score is strictly below the threshold (default `0.3`), report
"no relevant result" (`none`) instead of the best-scoring match. -/
def searchWithThreshold {Vec : Type} (cosSim : Vec → Vec → Rat) (threshold : Rat)
    (queryText : PyStr) (qv : Vec) (cands : List (Cand Vec)) : Option (Cand Vec) :=
  match bestCand (fun c => boostedScore cosSim queryText qv c.text c.vec) cands with
  | none => none
  | some (b, s) => if s < threshold then none else some b

/-- Helper for `splitLines`: accumulate the current line (reversed). -/
def splitLinesAux : PyStr → PyStr → List PyStr
  | [], cur => [cur.reverse]
  | c :: rest, cur =>
    if c = '\n' then cur.reverse :: splitLinesAux rest [] else splitLinesAux rest (c :: cur)

/-- Split a modelled string into its lines at newline characters,
keeping empty lines. -/
def splitLines (l : PyStr) : List PyStr := splitLinesAux l []

/-- Trim leading and trailing whitespace from a modelled string. -/
def trimL (l : PyStr) : PyStr :=
  ((l.dropWhile Char.isWhitespace).reverse.dropWhile Char.isWhitespace).reverse

/-- Group consecutive non-blank lines into blocks; a blank line opens a new
(initially empty) block. -/
def groupParas : List PyStr → List (List PyStr)
  | [] => []
  | ln :: rest =>
    let gs := groupParas rest
    if ln.all Char.isWhitespace then [] :: gs
    else
      match gs with
      | [] => [[ln]]
      | g :: gs' => (ln :: g) :: gs'

/-- Modelled from the spec: paragraph segmentation of the Text Segmenter
(the segmenting variants of the repository are not among the source files
under `src/`) — split on blank-line boundaries, trim each piece, drop empty
pieces, order preserved. -/
def segmentParagraphs (text : PyStr) : List PyStr :=
  (((groupParas (splitLines text)).map (fun g => trimL (List.intercalate ['\n'] g))).filter
    (fun p => !p.isEmpty))

end LettersAI

namespace LettersAI

/-! ## Helper lemmas -/

theorem isPrefixOf_iff : ∀ (a b : PyStr), (a.isPrefixOf b = true) ↔ ∃ r, b = a ++ r
  | [], b => by simp [List.isPrefixOf]
  | a :: as, [] => by simp [List.isPrefixOf]
  | a :: as, b :: bs => by
    simp only [List.isPrefixOf, Bool.and_eq_true, beq_iff_eq, isPrefixOf_iff as bs,
      List.cons_append, List.cons.injEq]
    constructor
    · rintro ⟨rfl, r, rfl⟩
      exact ⟨r, rfl, rfl⟩
    · rintro ⟨r, rfl, rfl⟩
      exact ⟨rfl, r, rfl⟩

theorem strContains_iff (text tok : PyStr) :
    (strContains text tok = true) ↔ ∃ pre post, text = pre ++ tok ++ post := by
  rw [strContains, List.any_eq_true]
  constructor
  · rintro ⟨t, ht, hp⟩
    rcases (List.mem_tails t text).1 ht with ⟨pre, hpre⟩
    rcases (isPrefixOf_iff tok t).1 hp with ⟨post, hpost⟩
    exact ⟨pre, post, by rw [← hpre, hpost, List.append_assoc]⟩
  · rintro ⟨pre, post, htext⟩
    refine ⟨tok ++ post, (List.mem_tails _ _).2 ⟨pre, ?_⟩, (isPrefixOf_iff tok _).2 ⟨post, rfl⟩⟩
    rw [htext, List.append_assoc]

theorem bestCand_mem {Vec : Type} (f : Cand Vec → Rat) :
    ∀ (l : List (Cand Vec)) (b : Cand Vec) (s : Rat),
      bestCand f l = some (b, s) → b ∈ l ∧ s = f b := by
  intro l
  induction l with
  | nil => intro b s h; simp [bestCand] at h
  | cons c rest ih =>
    intro b s h
    simp only [bestCand] at h
    cases hr : bestCand f rest with
    | none =>
      rw [hr] at h
      obtain ⟨rfl, rfl⟩ : c = b ∧ f c = s := by
        simpa using h
      exact ⟨List.mem_cons_self _ _, rfl⟩
    | some p =>
      obtain ⟨b', s'⟩ := p
      rw [hr] at h
      by_cases hlt : f c < s'
      · obtain ⟨rfl, rfl⟩ : b' = b ∧ s' = s := by simpa [hlt] using h
        obtain ⟨hmem, hs⟩ := ih _ _ hr
        exact ⟨List.mem_cons_of_mem _ hmem, hs⟩
      · obtain ⟨rfl, rfl⟩ : c = b ∧ f c = s := by simpa [hlt] using h
        exact ⟨List.mem_cons_self _ _, rfl⟩

theorem bestCand_cons_isSome {Vec : Type} (f : Cand Vec → Rat) (c : Cand Vec)
    (rest : List (Cand Vec)) : (bestCand f (c :: rest)).isSome = true := by
  simp only [bestCand]
  cases bestCand f rest with
  | none => rfl
  | some p =>
    obtain ⟨b, s⟩ := p
    by_cases hlt : f c < s
    · simp [hlt]
    · simp [hlt]

theorem mem_foldl_collectionDelete {Vec : Type} :
    ∀ (ids : List String) (acc : List (Entry Vec)) (e : Entry Vec),
      (e ∈ ids.foldl (fun a d => collectionDelete a d) acc) ↔
        (e ∈ acc ∧ ∀ d ∈ ids, e.id ≠ d) := by
  intro ids
  induction ids with
  | nil => intro acc e; simp
  | cons d ds ih =>
    intro acc e
    simp only [List.foldl_cons]
    rw [ih]
    simp only [collectionDelete, List.mem_filter, bne_iff_ne, List.forall_mem_cons]
    tauto

end LettersAI

namespace LettersAI

/-! ## Claim theorems -/

/-- C5: `detect_language` is a deterministic two-outcome classifier — it
returns `"yi"` exactly when the text contains at least one of the marker
characters ײ, ױ, װ, and returns the default `"he"` for every other text
(the empty string included). -/
theorem detect_language_two_outcomes (t : PyStr) :
    (detect_language t = "yi" ↔ ('ײ' ∈ t ∨ 'ױ' ∈ t ∨ 'װ' ∈ t)) ∧
    (detect_language t = "he" ↔ ¬('ײ' ∈ t ∨ 'ױ' ∈ t ∨ 'װ' ∈ t)) := by
  have h : (yiddishMarkers.any (fun c => t.contains c) = true) ↔
      ('ײ' ∈ t ∨ 'ױ' ∈ t ∨ 'װ' ∈ t) := by
    simp [yiddishMarkers, List.contains, List.elem_iff]
  by_cases hc : ('ײ' ∈ t ∨ 'ױ' ∈ t ∨ 'װ' ∈ t)
  · rw [detect_language, if_pos (h.mpr hc)]
    exact ⟨⟨fun _ => hc, fun _ => rfl⟩,
      ⟨fun he => absurd he (by decide), fun hn => absurd hc hn⟩⟩
  · rw [detect_language, if_neg (fun hb => hc (h.mp hb))]
    exact ⟨⟨fun he => absurd he (by decide), fun hy => absurd hy hc⟩,
      ⟨fun _ => hc, fun _ => rfl⟩⟩

/-- Witness for C5 at concrete inputs: a text containing װ is classified
`"yi"`, a marker-free Hebrew text and the empty text are classified `"he"`. -/
theorem detect_language_two_outcomes_witness :
    detect_language (strOf "װוינען") = "yi" ∧ detect_language (strOf "שלום") = "he" ∧
    detect_language [] = "he" :=
  ⟨(detect_language_two_outcomes (strOf "װוינען")).1.mpr (by decide),
   (detect_language_two_outcomes (strOf "שלום")).2.mpr (by decide),
   (detect_language_two_outcomes []).2.mpr (by decide)⟩

/-- C4: a query against an index holding zero documents returns the
distinguished sentinel `"No documents found."` — `search` is a total
function on the model, so no error is raised. -/
theorem search_empty_index_no_result {Vec : Type} (embed : PyStr → Vec)
    (dist : Vec → Vec → Rat) (translate : PyStr → String → PyStr) (query : PyStr)
    (s : Store Vec) (h : s.live = []) :
    search embed dist translate query s = strOf "No documents found." := by
  obtain ⟨live, per⟩ := s
  dsimp only at h
  subst h
  rfl

/-- Witness for C4: searching the empty store yields the sentinel. -/
theorem search_empty_index_no_result_witness :
    search (fun _ => ()) (fun _ _ => (0 : Rat)) (fun t _ => t) (strOf "hello")
      (⟨[], []⟩ : Store Unit) = strOf "No documents found." :=
  search_empty_index_no_result (fun _ => ()) (fun _ _ => (0 : Rat)) (fun t _ => t)
    (strOf "hello") ⟨[], []⟩ rfl

/-- C9: in the durable variant (`app.py`), both mutating operations —
`index_document` and `delete_documents` — call `collection.persist()` before
returning, so on return the persisted snapshot equals the live contents:
no mutation completes without being persisted. -/
theorem mutations_persist_before_return {Vec : Type} (embed : PyStr → Vec) (docId : String)
    (text : PyStr) (lang : String) (ids : List String) (s : Store Vec) :
    (index_document embed docId text lang s).persisted =
      (index_document embed docId text lang s).live ∧
    (delete_documents ids s).persisted = (delete_documents ids s).live :=
  ⟨rfl, rfl⟩

/-- Witness for C9 at a concrete add and a concrete delete. -/
theorem mutations_persist_before_return_witness :
    ((index_document (fun _ => ()) "a" (strOf "t") "he" (⟨[], []⟩ : Store Unit)).persisted =
      (index_document (fun _ => ()) "a" (strOf "t") "he" (⟨[], []⟩ : Store Unit)).live) ∧
    ((delete_documents ["a"] (⟨[], []⟩ : Store Unit)).persisted =
      (delete_documents ["a"] (⟨[], []⟩ : Store Unit)).live) :=
  mutations_persist_before_return (fun _ => ()) "a" (strOf "t") "he" ["a"] ⟨[], []⟩

/-- C10: `delete_documents` removes exactly the listed identifiers — a record
survives the call if and only if it was in the index before and its id is
not in the list, and the surviving record is unchanged (same id, embedding,
text and language metadata, being the very same record). -/
theorem delete_documents_frame {Vec : Type} (ids : List String) (s : Store Vec)
    (e : Entry Vec) :
    e ∈ (delete_documents ids s).live ↔ (e ∈ s.live ∧ e.id ∉ ids) := by
  show e ∈ ids.foldl (fun a d => collectionDelete a d) s.live ↔ _
  rw [mem_foldl_collectionDelete]
  constructor
  · rintro ⟨hmem, hall⟩
    exact ⟨hmem, fun hin => hall e.id hin rfl⟩
  · rintro ⟨hmem, hnin⟩
    exact ⟨hmem, fun d hd hedq => hnin (hedq ▸ hd)⟩

/-- Witness for C10: deleting `"gone"` keeps the untouched record `"keep"`
with all its fields. -/
theorem delete_documents_frame_witness :
    (⟨"keep", (), strOf "t", "he"⟩ : Entry Unit) ∈
      (delete_documents ["gone"]
        (⟨[⟨"keep", (), strOf "t", "he"⟩, ⟨"gone", (), strOf "u", "yi"⟩], []⟩ :
          Store Unit)).live :=
  (delete_documents_frame ["gone"]
    ⟨[⟨"keep", (), strOf "t", "he"⟩, ⟨"gone", (), strOf "u", "yi"⟩], []⟩
    ⟨"keep", (), strOf "t", "he"⟩).mpr ⟨by decide, by decide⟩

/-- C8: `list_documents` returns exactly one summary record per stored
document; each record carries the document's id, its language code and a
content preview that is a prefix of the document's text of length at
most 50. -/
theorem list_documents_one_record_per_doc {Vec : Type} (s : Store Vec) :
    (list_documents s).length = s.live.length ∧
    ∀ r ∈ list_documents s, ∃ e ∈ s.live,
      r.id = e.id ∧ r.lang = e.lang ∧ r.content_preview = e.text.take 50 ∧
      r.content_preview.length ≤ 50 ∧ ∃ rest, r.content_preview ++ rest = e.text := by
  constructor
  · simp [list_documents]
  · intro r hr
    rcases List.mem_map.1 hr with ⟨e, he, hre⟩
    refine ⟨e, he, ?_⟩
    rw [← hre]
    refine ⟨rfl, rfl, rfl, ?_, e.text.drop 50, List.take_append_drop 50 e.text⟩
    rw [List.length_take]
    exact Nat.min_le_left _ _

/-- Witness for C8 on a one-document store. -/
theorem list_documents_one_record_per_doc_witness :
    (list_documents (⟨[⟨"doc_0", (), strOf "aleph", "he"⟩], []⟩ : Store Unit)).length = 1 ∧
    ∃ e ∈ (⟨[⟨"doc_0", (), strOf "aleph", "he"⟩], []⟩ : Store Unit).live,
      (⟨"doc_0", "he", strOf "aleph"⟩ : DocSummary).id = e.id ∧
      (⟨"doc_0", "he", strOf "aleph"⟩ : DocSummary).lang = e.lang ∧
      (⟨"doc_0", "he", strOf "aleph"⟩ : DocSummary).content_preview = e.text.take 50 ∧
      (⟨"doc_0", "he", strOf "aleph"⟩ : DocSummary).content_preview.length ≤ 50 ∧
      ∃ rest, (⟨"doc_0", "he", strOf "aleph"⟩ : DocSummary).content_preview ++ rest = e.text :=
  ⟨(list_documents_one_record_per_doc
      (⟨[⟨"doc_0", (), strOf "aleph", "he"⟩], []⟩ : Store Unit)).1,
   (list_documents_one_record_per_doc
      (⟨[⟨"doc_0", (), strOf "aleph", "he"⟩], []⟩ : Store Unit)).2
     ⟨"doc_0", "he", strOf "aleph"⟩ (by decide)⟩

/-- C2: the boosted score equals the cosine similarity plus exactly `0.2`
when at least one whitespace-delimited token of the lower-cased query occurs
as a substring of the lower-cased candidate text, and plus `0` otherwise;
the two cases are exhaustive, so the boost is added at most once per
candidate no matter how many tokens match. -/
theorem boostedScore_lexical_boost_once {Vec : Type} (cosSim : Vec → Vec → Rat)
    (qt : PyStr) (qv : Vec) (ct : PyStr) (cv : Vec) :
    ((∃ tok ∈ splitWs (lowerL qt), ∃ pre post, lowerL ct = pre ++ tok ++ post) →
      boostedScore cosSim qt qv ct cv = cosSim qv cv + 1/5) ∧
    ((¬∃ tok ∈ splitWs (lowerL qt), ∃ pre post, lowerL ct = pre ++ tok ++ post) →
      boostedScore cosSim qt qv ct cv = cosSim qv cv + 0) := by
  have key : ((splitWs (lowerL qt)).any (fun tok => strContains (lowerL ct) tok) = true) ↔
      (∃ tok ∈ splitWs (lowerL qt), ∃ pre post, lowerL ct = pre ++ tok ++ post) := by
    rw [List.any_eq_true]
    constructor
    · rintro ⟨tok, htok, hc⟩
      exact ⟨tok, htok, (strContains_iff _ _).1 hc⟩
    · rintro ⟨tok, htok, hocc⟩
      exact ⟨tok, htok, (strContains_iff _ _).2 hocc⟩
  constructor
  · intro hex
    rw [boostedScore, lexicalBoost, if_pos (key.mpr hex)]
  · intro hnex
    rw [boostedScore, lexicalBoost, if_neg (fun hb => hnex (key.mp hb))]

/-- Witness for C2: for the query `"cat sat"` both tokens occur in the
candidate `"The cat sat"`, and the boost is `0.2` exactly once. -/
theorem boostedScore_lexical_boost_once_witness :
    boostedScore (fun _ _ => (1 : Rat)/2) (strOf "cat sat") () (strOf "The cat sat") () =
      (1 : Rat)/2 + 1/5 :=
  (boostedScore_lexical_boost_once (fun _ _ => (1 : Rat)/2) (strOf "cat sat") ()
      (strOf "The cat sat") ()).1
    ⟨strOf "cat", by decide, strOf "the ", strOf " sat", by decide⟩

/-- C1: over a non-empty candidate list, if every boosted score is strictly
below `0.3` the thresholded search reports the "no relevant result" outcome
(`none`); and whenever the selected best score is at least `0.3` — so in
particular exactly `0.3` — the best candidate is returned. -/
theorem searchWithThreshold_reject_below_accept_at {Vec : Type} (cosSim : Vec → Vec → Rat)
    (qt : PyStr) (qv : Vec) (cands : List (Cand Vec)) (hne : cands ≠ []) :
    ((∀ c ∈ cands, boostedScore cosSim qt qv c.text c.vec < 3/10) →
      searchWithThreshold cosSim (3/10) qt qv cands = none) ∧
    (∀ b s, bestCand (fun c => boostedScore cosSim qt qv c.text c.vec) cands = some (b, s) →
      3/10 ≤ s → searchWithThreshold cosSim (3/10) qt qv cands = some b) := by
  constructor
  · intro hall
    cases cands with
    | nil => exact absurd rfl hne
    | cons c rest =>
      have hsome := bestCand_cons_isSome (fun c => boostedScore cosSim qt qv c.text c.vec) c rest
      cases hb : bestCand (fun c => boostedScore cosSim qt qv c.text c.vec) (c :: rest) with
      | none => rw [hb] at hsome; simp at hsome
      | some p =>
        obtain ⟨b, s⟩ := p
        obtain ⟨hmem, hs⟩ := bestCand_mem _ _ _ _ hb
        rw [searchWithThreshold, hb]
        show (if s < 3/10 then (none : Option (Cand Vec)) else some b) = none
        rw [if_pos (hs ▸ hall b hmem)]
  · intro b s hb hge
    rw [searchWithThreshold, hb]
    show (if s < 3/10 then (none : Option (Cand Vec)) else some b) = some b
    rw [if_neg (not_lt.mpr hge)]

/-- Witness for C1: a single candidate with cosine `0` and no token match
scores `0 < 0.3` and the thresholded search reports `none`. -/
theorem searchWithThreshold_reject_below_accept_at_witness :
    searchWithThreshold (fun _ _ => (0 : Rat)) (3/10) (strOf "moon") ()
      [⟨strOf "sun", ()⟩] = none := by
  refine (searchWithThreshold_reject_below_accept_at (fun _ _ => (0 : Rat)) (strOf "moon") ()
      [⟨strOf "sun", ()⟩] (by simp)).1 ?_
  intro c hc
  have hceq : c = ⟨strOf "sun", ()⟩ := by simpa using hc
  rw [hceq]
  show boostedScore (fun _ _ => (0 : Rat)) (strOf "moon") () (strOf "sun") () < 3/10
  rw [boostedScore, lexicalBoost, if_neg (by decide)]
  norm_num

/-- C3 counterexample: the raw text `"aleph\n\nbeis"` segments into two
paragraph units, yet `index_document` of `app.py` stores a single record
holding the whole undivided text — not one embedding per unit. -/
theorem index_document_whole_text_counterexample :
    (segmentParagraphs (strOf "aleph\n\nbeis")).length = 2 ∧
    (index_document (fun _ => ()) "doc_0" (strOf "aleph\n\nbeis") "he"
        (⟨[], []⟩ : Store Unit)).live.map (fun e => e.text) = [strOf "aleph\n\nbeis"] ∧
    (index_document (fun _ => ()) "doc_0" (strOf "aleph\n\nbeis") "he"
        (⟨[], []⟩ : Store Unit)).live.length = 1 := by decide

/-- C3 as amended: for a fresh identifier, `index_document` appends exactly
one record whose text is the whole undivided document and whose embedding is
the single vector `embed text` — no segmentation takes place. -/
theorem index_document_single_whole_embedding {Vec : Type} (embed : PyStr → Vec)
    (docId : String) (text : PyStr) (lang : String) (s : Store Vec)
    (h : s.live.any (fun x => x.id == docId) = false) :
    (index_document embed docId text lang s).live =
      s.live ++ [⟨docId, embed text, text, lang⟩] := by
  show collectionAdd s.live ⟨docId, embed text, text, lang⟩ = _
  rw [collectionAdd, if_neg]
  simp [h]

/-- Witness for the amended C3 on the empty store. -/
theorem index_document_single_whole_embedding_witness :
    (index_document (fun _ => ()) "doc_9" (strOf "aleph") "he" (⟨[], []⟩ : Store Unit)).live =
      [⟨"doc_9", (), strOf "aleph", "he"⟩] :=
  index_document_single_whole_embedding (fun _ => ()) "doc_9" (strOf "aleph") "he"
    ⟨[], []⟩ (by decide)

/-- C6 (bug evidence): adding a second document under the already-used id
`"x"` does not replace the first — the store still holds the original text
`"aleph"`, not the newly added `"beis"`. -/
theorem index_document_duplicate_id_keeps_old :
    ((index_document (fun _ => ()) "x" (strOf "beis") "he"
        (index_document (fun _ => ()) "x" (strOf "aleph") "he"
          (⟨[], []⟩ : Store Unit))).live.map (fun e => e.text)) = [strOf "aleph"] := by decide

/-- C7 (bug evidence): after indexing two documents (`doc_0`, `doc_1`) and
deleting `doc_0`, the handler computes `current_count = 1` and assigns the
next upload the id `doc_1`, which still names a live document — the upload
is then silently dropped and the store keeps the old text `"beis"`. -/
theorem handler_id_collision_after_delete :
    ((delete_documents ["doc_0"]
        (indexDocumentsHandler (fun _ => ()) [strOf "aleph", strOf "beis"]
          (⟨[], []⟩ : Store Unit))).live.map (fun x => x.id) = ["doc_1"]) ∧
    ((indexDocumentsHandler (fun _ => ()) [strOf "gimel"]
        (delete_documents ["doc_0"]
          (indexDocumentsHandler (fun _ => ()) [strOf "aleph", strOf "beis"]
            (⟨[], []⟩ : Store Unit)))).live.map (fun x => x.text) = [strOf "beis"]) := by decide

end LettersAI
